import Mathlib

/-!
# Verification of the QR styling engine

Shallow embedding of the advanced QR styling module (`generateStyledQR`,
`applyGradient`, `interpolateColors`, `applyAdvancedStyle`,
`drawStyledModule`, `applyFrame`) of the QR-code actor repository.

Modelling conventions:
* Jimp packs a pixel color as a 32-bit integer `0xRRGGBBAA`; colors are
  modelled as `ℕ` and channel extraction follows `Jimp.intToRGBA`.
* Images are width/height plus a total pixel function `ℕ → ℕ → ℕ`
  (row-major RGBA8 buffer idealized as a function; out-of-bounds
  library edge behavior is not modelled).
* JavaScript floating-point arithmetic is idealized as exact rational
  arithmetic (`ℚ`); `Math.sqrt d <= r` comparisons are embedded as the
  equivalent `d ≤ r^2` with both sides squared, and `Math.round` as
  `⌊x + 1/2⌋` (round half up, as in JS for the nonnegative values that
  occur here).
* `Math.sqrt` values that are *used* (not merely compared), namely the
  radial gradient position, are irrational in general and are abstracted
  as an explicit function parameter `radialPos`; no proved statement
  depends on its value.
* Buffers and the fallible PNG decode/encode (`Jimp.read`,
  `getBufferAsync`, `Jimp.loadFont`) are modelled with `Except`-valued
  parameters; the `try/catch` of each stage becomes `tryCatch`.
* Exceptions raised inside the loops are modelled too: Jimp's
  `getPixelIndex` yields `-1` for an out-of-bounds coordinate and the
  subsequent `readUInt32BE(-1)` / `writeUInt32BE(_, -1)` throws, so the
  restyling loop's behavior is split into `restyleThrows` (does any
  sample read or shape write leave the raster/canvas?) and
  `styledCanvas` (the result when it does not); likewise the gradient
  switch's default branch assigns the raw string `colors[0]`, which
  `setPixelColor` rejects, making `applyGradient` fallible.  Only the
  existence of a throw is observable — each stage's catch discards the
  partial state and returns its input buffer.
-/

namespace QRApi

/-- One RGBA pixel, each channel in `0..255`. -/
structure RGBA where
  r : ℕ
  g : ℕ
  b : ℕ
  a : ℕ
deriving DecidableEq, Repr

/-- `Jimp.rgbaToInt r g b a = 0xRRGGBBAA`. -/
def rgbaToInt (r g b a : ℕ) : ℕ :=
  ((r * 256 + g) * 256 + b) * 256 + a

/-- `Jimp.intToRGBA`: unpack a 32-bit `0xRRGGBBAA` color. -/
def intToRGBA (v : ℕ) : RGBA :=
  ⟨v / 16777216 % 256, v / 65536 % 256, v / 256 % 256, v % 256⟩

/-- The dark-pixel classifier used throughout the styling engine:
`rgba.r < 128` (red channel below 128, the code's luminance proxy). -/
def isDark (v : ℕ) : Bool :=
  decide ((intToRGBA v).r < 128)

/-- A raster image: dimensions plus a total pixel function. -/
structure Image where
  width : ℕ
  height : ℕ
  px : ℕ → ℕ → ℕ

/-- JavaScript `Math.round` for the nonnegative values occurring here:
round half away from zero = `⌊x + 1/2⌋`. -/
def jsRound (x : ℚ) : ℤ := ⌊x + 1 / 2⌋

/-- `(c >> 16) & 0xff` for a parsed `0xRRGGBB` value. -/
def redByte (c : ℕ) : ℕ := c / 65536 % 256

/-- `(c >> 8) & 0xff`. -/
def greenByte (c : ℕ) : ℕ := c / 256 % 256

/-- `c & 0xff`. -/
def blueByte (c : ℕ) : ℕ := c % 256

/-- `interpolateColors(colors, position)` from the styling engine.  The
stops arrive as already-parsed 24-bit values (`parseInt(c.replace('#',''),
16)` applied to `#RRGGBB` strings).  Note the clamped branches return the
raw `0xRRGGBB` parse while the interior returns
`Jimp.rgbaToInt(r, g, b, 255) = 0xRRGGBBAA`. -/
def interpolateColors (hexColors : List ℕ) (position : ℚ) : ℕ :=
  if position ≤ 0 then hexColors.getD 0 0
  else if 1 ≤ position then hexColors.getD (hexColors.length - 1) 0
  else
    let scaledPosition : ℚ := position * ((hexColors.length : ℚ) - 1)
    let index : ℕ := (⌊scaledPosition⌋).toNat
    let fraction : ℚ := scaledPosition - (index : ℚ)
    let color1 := hexColors.getD index 0
    let color2 := hexColors.getD (min (index + 1) (hexColors.length - 1)) 0
    let r := (jsRound ((redByte color1 : ℚ) +
      ((redByte color2 : ℚ) - (redByte color1 : ℚ)) * fraction)).toNat
    let g := (jsRound ((greenByte color1 : ℚ) +
      ((greenByte color2 : ℚ) - (greenByte color1 : ℚ)) * fraction)).toNat
    let b := (jsRound ((blueByte color1 : ℚ) +
      ((blueByte color2 : ℚ) - (blueByte color1 : ℚ)) * fraction)).toNat
    rgbaToInt r g b 255

/-- The per-pixel `color` chosen by `applyGradient`'s
`switch (gradientType)`.  `radialPos x y` abstracts
`Math.sqrt(dx²+dy²) / Math.sqrt(cx²+cy²)` (an irrational value in
general).  The `default` branch assigns `colors[0]`, which is the RAW HEX
STRING of the stop (the stop list holds strings like `'#FF0000'`; only
`interpolateColors` parses them) — not a number, so
`Jimp.setPixelColor` rejects it with an exception.  That non-numeric
value is modelled as `none`; the three recognized cases produce a number,
`some …`. -/
def gradientColor (size : ℕ) (gradientType : String) (colors : List ℕ)
    (radialPos : ℕ → ℕ → ℚ) (x y : ℕ) : Option ℕ :=
  if gradientType = "linear-vertical" then
    some (interpolateColors colors ((y : ℚ) / (size : ℚ)))
  else if gradientType = "linear-horizontal" then
    some (interpolateColors colors ((x : ℚ) / (size : ℚ)))
  else if gradientType = "radial" then
    some (interpolateColors colors (radialPos x y))
  else none

/-- The gradient types with an explicit case in `applyGradient`'s switch;
every other value falls through to the `default` branch. -/
def recognizedGradient (gradientType : String) : Bool :=
  decide (gradientType = "linear-vertical") ||
  decide (gradientType = "linear-horizontal") ||
  decide (gradientType = "radial")

/-- Does the `[0,size)²` scan of `applyGradient` meet a dark pixel?
(Loop order: `y` outer, `x` inner.) -/
def hasDarkPixel (img : Image) (size : ℕ) : Bool :=
  (List.range size).any fun y =>
    (List.range size).any fun x => isDark (img.px x y)

/-- `applyGradient`'s double loop over `[0,size)²`.  Each pixel is read
once and rewritten (only when `rgba.r < 128`) before any other pixel is
touched, so for a recognized gradient type the in-place mutation is the
pointwise map below, on the input image's own dimensions.  For an
unrecognized type the switch default assigns the raw string `colors[0]`
and `setPixelColor` THROWS at the first dark pixel the scan meets —
before any write has happened — so the loop body raises (`.error`); if
the scan meets no dark pixel, `setPixelColor` is never called and the
image is returned unchanged.  (The `getD` below is never the fallback:
in this branch the switch produced `some` for every pixel.) -/
def applyGradient (img : Image) (size : ℕ) (gradientType : String)
    (colors : List ℕ) (radialPos : ℕ → ℕ → ℚ) : Except String Image :=
  if recognizedGradient gradientType then
    .ok ⟨img.width, img.height, fun x y =>
      if x < size ∧ y < size ∧ isDark (img.px x y) then
        (gradientColor size gradientType colors radialPos x y).getD
          (img.px x y)
      else img.px x y⟩
  else if hasDarkPixel img size then
    .error "setPixelColor: hex must be a number"
  else .ok img

/-- The geometric test of `drawStyledModule`'s scan callback: does the
shape drawn for the module whose bounding box starts at `(x, y)` with
module size `s` cover the scanned pixel `(px, py)`?  `Math.sqrt(d) <= r`
is embedded as the equivalent squared comparison. -/
def moduleCovers (style : String) (x y s px py : ℕ) : Bool :=
  if style = "dots" then
    -- circle of radius s/2 centered at (x + s/2, y + s/2):
    -- (px-(x+s/2))² + (py-(y+s/2))² ≤ (s/2)², rescaled by 4 to integers
    decide ((2 * (px : ℤ) - 2 * (x : ℤ) - (s : ℤ)) ^ 2 +
      (2 * (py : ℤ) - 2 * (y : ℤ) - (s : ℤ)) ^ 2 ≤ (s : ℤ) ^ 2)
  else if style = "rounded" ∨ style = "classy-rounded" then
    -- rounded square with cornerRadius = 0.3 * s; every comparison with
    -- cornerRadius is rescaled by 10, every distance comparison by 100
    let lx : ℤ := (px : ℤ) - (x : ℤ)
    let ly : ℤ := (py : ℤ) - (y : ℤ)
    if 10 * lx < 3 * (s : ℤ) ∧ 10 * ly < 3 * (s : ℤ) then
      decide ((10 * lx - 3 * (s : ℤ)) ^ 2 + (10 * ly - 3 * (s : ℤ)) ^ 2 ≤
        9 * (s : ℤ) ^ 2)
    else if 7 * (s : ℤ) < 10 * lx ∧ 10 * ly < 3 * (s : ℤ) then
      decide ((10 * lx - 7 * (s : ℤ)) ^ 2 + (10 * ly - 3 * (s : ℤ)) ^ 2 ≤
        9 * (s : ℤ) ^ 2)
    else if 10 * lx < 3 * (s : ℤ) ∧ 7 * (s : ℤ) < 10 * ly then
      decide ((10 * lx - 3 * (s : ℤ)) ^ 2 + (10 * ly - 7 * (s : ℤ)) ^ 2 ≤
        9 * (s : ℤ) ^ 2)
    else if 7 * (s : ℤ) < 10 * lx ∧ 7 * (s : ℤ) < 10 * ly then
      decide ((10 * lx - 7 * (s : ℤ)) ^ 2 + (10 * ly - 7 * (s : ℤ)) ^ 2 ≤
        9 * (s : ℤ) ^ 2)
    else true
  else
    -- default branch: full square ('square', 'extra-rounded', 'classy', …)
    true

/-- `drawStyledModule(image, x, y, size, style, color)`: the
`image.scan(x, y, size, size, …)` writes `color` to every pixel of the
module's bounding box that the shape covers. -/
def drawStyledModule (image : Image) (x y s : ℕ) (style : String)
    (color : ℕ) : Image :=
  { image with px := fun px py =>
      if x ≤ px ∧ px < x + s ∧ y ≤ py ∧ py < y + s ∧
          moduleCovers style x y s px py then color
      else image.px px py }

/-- The start coordinates visited by `for (let v = 0; v < size; v += s)`:
`0, s, 2s, …` while `< size` (empty for `s = 0`, where the JS loop would
never terminate for positive `size`). -/
def moduleStarts (size s : ℕ) : List ℕ :=
  (List.range ((size + s - 1) / s)).map (fun i => i * s)

/-- The `(x, y)` pairs visited by the nested module-detection loops of
`applyAdvancedStyle` (outer `y`, inner `x`), flattened in loop order. -/
def modulePairs (size s : ℕ) : List (ℕ × ℕ) :=
  (moduleStarts size s).flatMap fun y =>
    (moduleStarts size s).map fun x => (x, y)

/-- The canvas `applyAdvancedStyle`'s loop builds when it completes
without an exception: module pitch `moduleSize = Math.floor(size / 33)`;
a fresh opaque-white canvas `new Jimp(size, size, 0xFFFFFFFF)`; for each
module whose sampled pixel `(x + ⌊s/2⌋, y + ⌊s/2⌋)` is dark,
`drawStyledModule` paints the styled shape with the input's color at the
module corner `(x, y)`. -/
def styledCanvas (img : Image) (style : String) (size : ℕ) : Image :=
  let s := size / 33
  (modulePairs size s).foldl
    (fun acc m =>
      if isDark (img.px (m.1 + s / 2) (m.2 + s / 2)) then
        drawStyledModule acc m.1 m.2 s style (img.px m.1 m.2)
      else acc)
    ⟨size, size, fun _ _ => 0xFFFFFFFF⟩

/-- Does drawing the module whose box starts at `(x, y)` write outside
the `size × size` canvas?  `Jimp.scan` does not clip, and
`setPixelColor` on an out-of-bounds coordinate gets index `-1` from
`getPixelIndex` and throws in `writeUInt32BE` — so the draw raises iff
the shape covers some pixel beyond the canvas edge. -/
def drawThrows (style : String) (x y s size : ℕ) : Bool :=
  decide (∃ px < x + s, ∃ py < y + s, x ≤ px ∧ y ≤ py ∧
    (size ≤ px ∨ size ≤ py) ∧ moduleCovers style x y s px py = true)

/-- Does the module-detection loop of `applyAdvancedStyle` raise an
exception?  For each visited module (in loop order) the sample read
`getPixelColor(x + ⌊s/2⌋, y + ⌊s/2⌋)` throws first if that coordinate
lies outside the input raster (`getPixelIndex` yields `-1`,
`readUInt32BE(-1)` throws) — this happens whenever
`size mod pitch ∈ [1, pitch/2]`, e.g. at the default `size = 300`
(pitch 9, last start 297, sample x `301 ≥ 300`); otherwise, if the
sample is dark, the draw throws iff it writes off the canvas.  Only the
existence of a throwing module is observable: the partially drawn canvas
is discarded and the stage's catch returns its input buffer. -/
def restyleThrows (img : Image) (style : String) (size : ℕ) : Bool :=
  (modulePairs size (size / 33)).any fun m =>
    decide (img.width ≤ m.1 + size / 33 / 2) ||
    decide (img.height ≤ m.2 + size / 33 / 2) ||
    (isDark (img.px (m.1 + size / 33 / 2) (m.2 + size / 33 / 2)) &&
      drawThrows style m.1 m.2 (size / 33) size)

/-- `applyAdvancedStyle(qrBuffer, style, size)`'s fallible loop body:
the finished white-canvas restyle when no access is out of bounds, and
an exception otherwise (see `restyleThrows`). -/
def applyAdvancedStyle (img : Image) (style : String) (size : ℕ) :
    Except String Image :=
  if restyleThrows img style size then
    .error "readUInt32BE: out of range index"
  else .ok (styledCanvas img style size)

/-- The observable image-level result of the module-restyling stage: the
styled canvas when the loop completes, the untouched input raster when
it throws (the catch returns `qrBuffer`). -/
def restyleResult (img : Image) (style : String) (size : ℕ) : Image :=
  match applyAdvancedStyle img style size with
  | .ok out => out
  | .error _ => img

/-- The options destructured by `applyFrame`. -/
structure FrameOptions where
  size : ℕ
  frameColor : ℕ
  frameText : String
  frameTextColor : ℕ
  frameTextSize : ℕ

/-- `applyFrame`'s pure image construction: `frameWidth =
Math.floor(size * 0.1)` (exactly `size / 10` in ℕ), a
`newSize × (newSize + textSpace)` canvas filled with the frame color, the
input composited at offset `(frameWidth, frameWidth)` (opaque source, so
compositing overwrites), the `circular` style clipping to the inscribed
circle (`Jimp.circle` makes outside pixels transparent), and the caption
glyph rasterization (`Jimp.print`) abstracted as the in-place pixel
transform `printPx`, applied iff the caption text is non-empty. -/
def applyFrame (image : Image) (frameStyle : String) (o : FrameOptions)
    (printPx : (ℕ → ℕ → ℕ) → String → ℕ → ℕ → ℕ) : Image :=
  let frameWidth := o.size / 10
  let newSize := o.size + frameWidth * 2
  let textSpace := if o.frameText ≠ "" then 60 else 0
  let base : ℕ → ℕ → ℕ := fun x y =>
    if frameWidth ≤ x ∧ x < frameWidth + image.width ∧
        frameWidth ≤ y ∧ y < frameWidth + image.height then
      image.px (x - frameWidth) (y - frameWidth)
    else o.frameColor
  let masked : ℕ → ℕ → ℕ :=
    -- circular mask: (x-n/2)² + (y-n/2)² > (n/2)², rescaled by 4
    if frameStyle = "circular" then fun x y =>
      if (newSize : ℤ) ^ 2 <
          (2 * (x : ℤ) - (newSize : ℤ)) ^ 2 +
          (2 * (y : ℤ) - (newSize : ℤ)) ^ 2 then 0
      else base x y
    else base
  let final : ℕ → ℕ → ℕ :=
    if o.frameText ≠ "" then printPx masked o.frameText else masked
  { width := newSize, height := newSize + textSpace, px := final }

/-- The `try { … } catch (error) { return qrBuffer; }` pattern shared by
`applyGradient`, `applyAdvancedStyle` and `applyFrame`: on any exception
the stage returns its input value unchanged (after a diagnostic log). -/
def tryCatch {β : Type} (body : Except String β) (fallback : β) : β :=
  match body with
  | .ok out => out
  | .error _ => fallback

/-- The fallible body of the gradient stage: `await Jimp.read(qrBuffer)`
(`decode`), the pure pixel loop, `await image.getBufferAsync(…)`
(`encode`). -/
def gradientBody {β : Type} (decode : β → Except String Image)
    (encode : Image → Except String β) (qrBuffer : β) (size : ℕ)
    (gradientType : String) (colors : List ℕ)
    (radialPos : ℕ → ℕ → ℚ) : Except String β := do
  let image ← decode qrBuffer
  let recolored ← applyGradient image size gradientType colors radialPos
  encode recolored

/-- Buffer-level `applyGradient` with its `try/catch`. -/
def applyGradientStage {β : Type} (decode : β → Except String Image)
    (encode : Image → Except String β) (qrBuffer : β) (size : ℕ)
    (gradientType : String) (colors : List ℕ)
    (radialPos : ℕ → ℕ → ℚ) : β :=
  tryCatch (gradientBody decode encode qrBuffer size gradientType colors
    radialPos) qrBuffer

/-- The fallible body of the module-restyling stage. -/
def styleBody {β : Type} (decode : β → Except String Image)
    (encode : Image → Except String β) (qrBuffer : β) (style : String)
    (size : ℕ) : Except String β := do
  let image ← decode qrBuffer
  let styled ← applyAdvancedStyle image style size
  encode styled

/-- Buffer-level `applyAdvancedStyle` with its `try/catch`. -/
def applyAdvancedStyleStage {β : Type} (decode : β → Except String Image)
    (encode : Image → Except String β) (qrBuffer : β) (style : String)
    (size : ℕ) : β :=
  tryCatch (styleBody decode encode qrBuffer style size) qrBuffer

/-- The fallible body of the frame stage: decode, build the framed image,
`await Jimp.loadFont(…)` (`loadFont`, attempted iff a caption is present),
encode. -/
def frameBody {β : Type} (decode : β → Except String Image)
    (encode : Image → Except String β) (loadFont : Except String Unit)
    (printPx : (ℕ → ℕ → ℕ) → String → ℕ → ℕ → ℕ) (qrBuffer : β)
    (frameStyle : String) (o : FrameOptions) : Except String β := do
  let image ← decode qrBuffer
  let _ ← if o.frameText ≠ "" then loadFont else pure ()
  encode (applyFrame image frameStyle o printPx)

/-- Buffer-level `applyFrame` with its `try/catch`. -/
def applyFrameStage {β : Type} (decode : β → Except String Image)
    (encode : Image → Except String β) (loadFont : Except String Unit)
    (printPx : (ℕ → ℕ → ℕ) → String → ℕ → ℕ → ℕ) (qrBuffer : β)
    (frameStyle : String) (o : FrameOptions) : β :=
  tryCatch (frameBody decode encode loadFont printPx qrBuffer frameStyle o)
    qrBuffer

/-- The options destructured by `generateStyledQR`, with its JS defaults.
Colors are the parsed 32-bit values; gradient stops are already-parsed
24-bit values. -/
structure StyleOptions where
  size : ℕ := 300
  style : String := "square"
  gradientType : String := "none"
  gradientColors : Option (List ℕ) := none
  frame : String := "none"
  frameColor : ℕ := 255
  frameText : String := ""
  frameTextColor : ℕ := 255
  frameTextSize : ℕ := 14

/-- The guard `gradientColors && gradientColors.length >= 2`. -/
def gradientColorsOk : Option (List ℕ) → Bool
  | some cs => decide (2 ≤ cs.length)
  | none => false

/-- `generateStyledQR(content, options)` after the external
`QRCode.toBuffer` call produced the base buffer `qrBuffer`: each styling
stage runs iff its option is set, otherwise the buffer flows through
untouched. -/
def generateStyledQR {β : Type} (decode : β → Except String Image)
    (encode : Image → Except String β) (loadFont : Except String Unit)
    (printPx : (ℕ → ℕ → ℕ) → String → ℕ → ℕ → ℕ)
    (radialPos : ℕ → ℕ → ℚ) (qrBuffer : β) (o : StyleOptions) : β :=
  let b1 :=
    if o.gradientType ≠ "none" ∧ gradientColorsOk o.gradientColors then
      applyGradientStage decode encode qrBuffer o.size o.gradientType
        (o.gradientColors.getD []) radialPos
    else qrBuffer
  let b2 :=
    if o.style ≠ "square" then
      applyAdvancedStyleStage decode encode b1 o.style o.size
    else b1
  let b3 :=
    if o.frame ≠ "none" then
      applyFrameStage decode encode loadFont printPx b2 o.frame
        ⟨o.size, o.frameColor, o.frameText, o.frameTextColor,
          o.frameTextSize⟩
    else b2
  b3

/-- The customization fields `generatePNG` inspects; `Option.none` models
a JS `undefined` field and `some ""` an explicitly empty string (both
falsy). -/
structure Customization where
  style : Option String := none
  gradientType : Option String := none
  frame : Option String := none
  logoUrl : Option String := none
  gradientColors : Option (List ℕ) := none
  frameText : Option String := none
  size : ℕ := 300

/-- JS truthiness for an optional string field. -/
def truthy : Option String → Bool
  | none => false
  | some s => decide (s ≠ "")

/-- The destructuring defaults of `generateStyledQR` applied to a raw
customization (a JS default fires only on `undefined`). -/
def toStyleOptions (c : Customization) : StyleOptions :=
  { size := c.size,
    style := c.style.getD "square",
    gradientType := c.gradientType.getD "none",
    gradientColors := c.gradientColors,
    frame := c.frame.getD "none",
    frameText := c.frameText.getD "" }

/-- `generatePNG(content, customization, id)` after the base buffer is
produced: the styled generator runs iff any of `style`, `gradientType`,
`frame` is truthy; otherwise the standard path overlays the logo
(abstracted as `logoOverlay`, itself try/catch-guarded in the source) iff
`logoUrl` is set, else returns the base buffer as-is. -/
def generatePNG {β : Type} (decode : β → Except String Image)
    (encode : Image → Except String β) (loadFont : Except String Unit)
    (printPx : (ℕ → ℕ → ℕ) → String → ℕ → ℕ → ℕ)
    (radialPos : ℕ → ℕ → ℚ) (logoOverlay : β → β) (qrBuffer : β)
    (c : Customization) : β :=
  if truthy c.style ∨ truthy c.gradientType ∨ truthy c.frame then
    generateStyledQR decode encode loadFont printPx radialPos qrBuffer
      (toStyleOptions c)
  else if c.logoUrl.isSome then logoOverlay qrBuffer
  else qrBuffer

/-- Modelled from the spec: the FrameCompositor contract's
`frameWidth = round(0.1 · width)` — round half up of `w/10`, which for
natural `w` is `⌊(w + 5) / 10⌋` (the source instead computes
`Math.floor(size * 0.1)`); kept for comparison with `applyFrame`. -/
def specFrameWidth (w : ℕ) : ℕ :=
  (w + 5) / 10

/-- The six shape styles of `STYLE_TYPES` (spec §3 `StyleSpec`). -/
def shapeStyles : List String :=
  ["square", "dots", "rounded", "extra-rounded", "classy",
   "classy-rounded"]

/-- The gradient types recognized by `applyGradient` plus `none`
(spec §3 `GradientSpec`). -/
def gradientTypes : List String :=
  ["none", "linear-vertical", "linear-horizontal", "radial"]

/-- The frame styles of `FRAME_STYLES` (spec §3 `FrameSpec`). -/
def frameStyles : List String :=
  ["none", "basic", "circular", "edge", "camera", "banner"]

/-! ### Concrete fixtures used to instantiate quantified theorems -/

/-- An `n × n` opaque-black raster (`0x000000FF` everywhere). -/
def blackImg (n : ℕ) : Image := ⟨n, n, fun _ _ => 255⟩

/-- A `1 × 1` opaque-white raster. -/
def whiteImg : Image := ⟨1, 1, fun _ _ => 0xFFFFFFFF⟩

/-- A `33 × 33` opaque-red raster (`0xFF0000FF` everywhere). -/
def redImg : Image := ⟨33, 33, fun _ _ => 0xFF0000FF⟩

/-- A `300 × 300` opaque-red raster — the spec's default size, at which
the restyling loop's sampling overruns the raster. -/
def redImg300 : Image := ⟨300, 300, fun _ _ => 0xFF0000FF⟩

/-- A decode that always succeeds (buffers taken to be images). -/
def okDecode : Image → Except String Image := .ok

/-- An encode that always succeeds (buffers taken to be images). -/
def okEncode : Image → Except String Image := .ok

/-- A decode that always throws, standing for a failing `Jimp.read`. -/
def failDecode : Image → Except String Image := fun _ => .error "read failed"

/-- A trivial radial-position function. -/
def zeroPos : ℕ → ℕ → ℚ := fun _ _ => 0

/-- A caption rasterizer that draws nothing. -/
def idPrint : (ℕ → ℕ → ℕ) → String → ℕ → ℕ → ℕ := fun f _ => f

/-- Options with an unrecognized shape style. -/
def hexagonOpts : StyleOptions := { size := 33, style := "hexagon" }

/-- Options with a single-stop linear gradient. -/
def singleStopOpts : StyleOptions :=
  { size := 2, gradientType := "linear-vertical",
    gradientColors := some [0xFF0000] }

/-! ### Helper lemmas -/

theorem except_bind_ok {α β : Type} (a : α) (f : α → Except String β) :
    (Except.ok a >>= f) = f a := rfl

theorem except_bind_err {α β : Type} (e : String)
    (f : α → Except String β) :
    (Except.error e >>= f : Except String β) = Except.error e := rfl

theorem intToRGBA_rgbaToInt (r g b a : ℕ) (hr : r < 256) (hg : g < 256)
    (hb : b < 256) (ha : a < 256) :
    intToRGBA (rgbaToInt r g b a) = ⟨r, g, b, a⟩ := by
  simp only [intToRGBA, rgbaToInt, RGBA.mk.injEq]
  refine ⟨?_, ?_, ?_, ?_⟩ <;> omega

theorem redByte_lt (c : ℕ) : redByte c < 256 := Nat.mod_lt _ (by norm_num)

theorem greenByte_lt (c : ℕ) : greenByte c < 256 := Nat.mod_lt _ (by norm_num)

theorem blueByte_lt (c : ℕ) : blueByte c < 256 := Nat.mod_lt _ (by norm_num)

theorem jsRound_mono {x y : ℚ} (h : x ≤ y) : jsRound x ≤ jsRound y :=
  Int.floor_le_floor (by linarith)

theorem jsRound_toNat_mono {x y : ℚ} (h : x ≤ y) :
    (jsRound x).toNat ≤ (jsRound y).toNat := by
  have := jsRound_mono h
  omega

/-- The interior value interpolated between two byte channels stays below
256. -/
theorem jsRound_byte_lt (u v : ℕ) (hu : u < 256) (hv : v < 256) (p : ℚ)
    (h0 : 0 ≤ p) (h1 : p ≤ 1) :
    (jsRound ((u : ℚ) + ((v : ℚ) - (u : ℚ)) * p)).toNat < 256 := by
  have hval : (u : ℚ) + ((v : ℚ) - (u : ℚ)) * p ≤ 255 := by
    have hu' : (u : ℚ) ≤ 255 := by exact_mod_cast Nat.lt_succ_iff.mp hu
    have hv' : (v : ℚ) ≤ 255 := by exact_mod_cast Nat.lt_succ_iff.mp hv
    nlinarith
  have : jsRound ((u : ℚ) + ((v : ℚ) - (u : ℚ)) * p) < 256 := by
    apply Int.floor_lt.mpr
    push_cast
    linarith
  omega

/-- `interpolateColors` on a two-stop list at an interior position,
unfolded to its channel computations. -/
theorem interpolateColors_two (c0 c1 : ℕ) (p : ℚ) (h0 : 0 < p)
    (h1 : p < 1) :
    interpolateColors [c0, c1] p =
      rgbaToInt
        (jsRound ((redByte c0 : ℚ) +
          ((redByte c1 : ℚ) - (redByte c0 : ℚ)) * p)).toNat
        (jsRound ((greenByte c0 : ℚ) +
          ((greenByte c1 : ℚ) - (greenByte c0 : ℚ)) * p)).toNat
        (jsRound ((blueByte c0 : ℚ) +
          ((blueByte c1 : ℚ) - (blueByte c0 : ℚ)) * p)).toNat 255 := by
  have hfloor : ⌊p * (((2 : ℕ) : ℚ) - 1)⌋ = 0 := by
    rw [show (((2 : ℕ) : ℚ) - 1) = 1 by norm_num, mul_one]
    exact Int.floor_eq_zero_iff.mpr ⟨le_of_lt h0, h1⟩
  simp only [interpolateColors, List.length_cons, List.length_nil,
    if_neg (not_le.mpr h0), if_neg (not_le.mpr h1), hfloor, Int.toNat_zero,
    List.getD, List.getElem?_cons_zero, List.getElem?_cons_succ,
    Option.getD_some, Nat.cast_zero, sub_zero, Nat.zero_add, min_self]
  norm_num

/-! ### C3 -/

/-- C3: for every nonempty ordered stop list, the interpolation clamps:
every position `p ≤ 0` returns the first stop's parsed color exactly, and
every `p ≥ 1` returns the last stop's parsed color exactly; in particular
for a two-stop gradient `[c0, c1]`, interpolation at `0` is `c0` and at
`1` is `c1` (so channel for channel). -/
theorem interpolateColors_clamps (stops : List ℕ) (hne : stops ≠ [])
    (p : ℚ) (c0 c1 : ℕ) :
    (p ≤ 0 → interpolateColors stops p = stops.head hne) ∧
    (1 ≤ p → interpolateColors stops p = stops.getLast hne) ∧
    interpolateColors [c0, c1] 0 = c0 ∧
    interpolateColors [c0, c1] 1 = c1 := by
  refine ⟨fun hp => ?_, fun hp => ?_, ?_, ?_⟩
  · simp only [interpolateColors, if_pos hp]
    cases stops with
    | nil => exact absurd rfl hne
    | cons a t => rfl
  · have h0 : ¬p ≤ 0 := by linarith
    have hlen : stops.length - 1 < stops.length := by
      cases stops with
      | nil => exact absurd rfl hne
      | cons a t => simp
    simp only [interpolateColors, if_neg h0, if_pos hp]
    rw [List.getD_eq_getElem _ _ hlen, List.getLast_eq_getElem]
  · simp only [interpolateColors, if_pos le_rfl]; rfl
  · simp only [interpolateColors, if_neg (by norm_num : ¬(1 : ℚ) ≤ 0),
      if_pos le_rfl]
    rfl

/-- Witness for `interpolateColors_clamps` at concrete stop lists. -/
theorem interpolateColors_clamps_witness :
    interpolateColors [10, 20] 2 = 20 ∧ interpolateColors [7, 9] 0 = 7 :=
  ⟨(interpolateColors_clamps [10, 20] (by decide) 2 7 9).2.1 (by norm_num),
   (interpolateColors_clamps [10, 20] (by decide) 2 7 9).2.2.1⟩

/-- A single linearly interpolated byte channel is monotone in the
position when the target channel dominates the source channel. -/
theorem interp_chan_mono (u v : ℕ) (p1 p2 : ℚ) (h12 : p1 ≤ p2)
    (huv : u ≤ v) :
    (jsRound ((u : ℚ) + ((v : ℚ) - (u : ℚ)) * p1)).toNat ≤
      (jsRound ((u : ℚ) + ((v : ℚ) - (u : ℚ)) * p2)).toNat := by
  apply jsRound_toNat_mono
  have hc : ((u : ℕ) : ℚ) ≤ ((v : ℕ) : ℚ) := Nat.cast_le.mpr huv
  nlinarith [hc, h12]

/-- The antitone counterpart of `interp_chan_mono`. -/
theorem interp_chan_anti (u v : ℕ) (p1 p2 : ℚ) (h12 : p1 ≤ p2)
    (hvu : v ≤ u) :
    (jsRound ((u : ℚ) + ((v : ℚ) - (u : ℚ)) * p2)).toNat ≤
      (jsRound ((u : ℚ) + ((v : ℚ) - (u : ℚ)) * p1)).toNat := by
  apply jsRound_toNat_mono
  have hc : ((v : ℕ) : ℚ) ≤ ((u : ℕ) : ℚ) := Nat.cast_le.mpr hvu
  nlinarith [hc, h12]

/-! ### C9 -/

/-- C9 is false as stated: take the two-stop gradient
`[#FF0000, #000000]` (red channel decreasing, `255 ≥ 0`) and positions
`p1 = 0 ≤ p2 = 1/2`.  At `p1` the clamp returns the raw parse
`0xFF0000`, whose red channel under the `0xRRGGBBAA` layout used for
every interior value (and by `setPixelColor`) reads as `0`; at `p2` the
interior value `rgbaToInt 128 0 0 255` has red channel `128` — so the
channel is not `≥` along the pair as the claim requires. -/
theorem interpolateColors_monotone_cex :
    redByte 0 ≤ redByte 0xFF0000 ∧
    (intToRGBA (interpolateColors [0xFF0000, 0] 0)).r = 0 ∧
    (intToRGBA (interpolateColors [0xFF0000, 0] (1 / 2))).r = 128 ∧
    ¬((intToRGBA (interpolateColors [0xFF0000, 0] (1 / 2))).r ≤
      (intToRGBA (interpolateColors [0xFF0000, 0] 0)).r) := by
  have h2 : (intToRGBA (interpolateColors [0xFF0000, 0] (1 / 2))).r =
      128 := by
    rw [interpolateColors_two 0xFF0000 0 (1 / 2) (by norm_num)
      (by norm_num)]
    rw [intToRGBA_rgbaToInt _ _ _ _
      (jsRound_byte_lt _ _ (redByte_lt _) (redByte_lt _) _ (by norm_num)
        (by norm_num))
      (jsRound_byte_lt _ _ (greenByte_lt _) (greenByte_lt _) _
        (by norm_num) (by norm_num))
      (jsRound_byte_lt _ _ (blueByte_lt _) (blueByte_lt _) _ (by norm_num)
        (by norm_num)) (by norm_num)]
    simp only [jsRound, redByte]
    norm_num
    decide
  refine ⟨by decide, by decide, h2, ?_⟩
  rw [h2]
  decide

/-- C9 amended: per-channel monotonicity holds for pairs of positions
strictly inside `(0, 1)` (where every value is an interior
`rgbaToInt r g b 255`): for `0 < p1 ≤ p2 < 1`, each channel of the
interpolated color moves in the direction of the corresponding channel of
the two stops.  (At the clamped endpoints the function instead returns
the raw `0xRRGGBB` parse, whose byte layout differs — see the
counterexample.) -/
theorem interpolateColors_interior_monotone (c0 c1 : ℕ) (p1 p2 : ℚ)
    (hp1 : 0 < p1) (h12 : p1 ≤ p2) (hp2 : p2 < 1) :
    ((redByte c0 ≤ redByte c1 →
        (intToRGBA (interpolateColors [c0, c1] p1)).r ≤
          (intToRGBA (interpolateColors [c0, c1] p2)).r) ∧
      (redByte c1 ≤ redByte c0 →
        (intToRGBA (interpolateColors [c0, c1] p2)).r ≤
          (intToRGBA (interpolateColors [c0, c1] p1)).r)) ∧
    ((greenByte c0 ≤ greenByte c1 →
        (intToRGBA (interpolateColors [c0, c1] p1)).g ≤
          (intToRGBA (interpolateColors [c0, c1] p2)).g) ∧
      (greenByte c1 ≤ greenByte c0 →
        (intToRGBA (interpolateColors [c0, c1] p2)).g ≤
          (intToRGBA (interpolateColors [c0, c1] p1)).g)) ∧
    ((blueByte c0 ≤ blueByte c1 →
        (intToRGBA (interpolateColors [c0, c1] p1)).b ≤
          (intToRGBA (interpolateColors [c0, c1] p2)).b) ∧
      (blueByte c1 ≤ blueByte c0 →
        (intToRGBA (interpolateColors [c0, c1] p2)).b ≤
          (intToRGBA (interpolateColors [c0, c1] p1)).b)) := by
  have hq1 : (0 : ℚ) ≤ p1 := le_of_lt hp1
  have hq2 : p1 ≤ 1 := le_of_lt (lt_of_le_of_lt h12 hp2)
  have hq3 : (0 : ℚ) ≤ p2 := le_trans hq1 h12
  have hq4 : p2 ≤ 1 := le_of_lt hp2
  rw [interpolateColors_two c0 c1 p1 hp1 (lt_of_le_of_lt h12 hp2),
    interpolateColors_two c0 c1 p2 (lt_of_lt_of_le hp1 h12) hp2,
    intToRGBA_rgbaToInt _ _ _ _
      (jsRound_byte_lt _ _ (redByte_lt _) (redByte_lt _) _ hq1 hq2)
      (jsRound_byte_lt _ _ (greenByte_lt _) (greenByte_lt _) _ hq1 hq2)
      (jsRound_byte_lt _ _ (blueByte_lt _) (blueByte_lt _) _ hq1 hq2)
      (by norm_num),
    intToRGBA_rgbaToInt _ _ _ _
      (jsRound_byte_lt _ _ (redByte_lt _) (redByte_lt _) _ hq3 hq4)
      (jsRound_byte_lt _ _ (greenByte_lt _) (greenByte_lt _) _ hq3 hq4)
      (jsRound_byte_lt _ _ (blueByte_lt _) (blueByte_lt _) _ hq3 hq4)
      (by norm_num)]
  exact ⟨⟨fun h => interp_chan_mono _ _ _ _ h12 h,
      fun h => interp_chan_anti _ _ _ _ h12 h⟩,
    ⟨fun h => interp_chan_mono _ _ _ _ h12 h,
      fun h => interp_chan_anti _ _ _ _ h12 h⟩,
    fun h => interp_chan_mono _ _ _ _ h12 h,
    fun h => interp_chan_anti _ _ _ _ h12 h⟩

/-- Witness for `interpolateColors_interior_monotone` at
`[#000000, #FFFFFF]`, positions `1/4 ≤ 1/2`. -/
theorem interpolateColors_interior_monotone_witness :
    (intToRGBA (interpolateColors [0, 0xFFFFFF] (1 / 4))).r ≤
      (intToRGBA (interpolateColors [0, 0xFFFFFF] (1 / 2))).r :=
  (interpolateColors_interior_monotone 0 0xFFFFFF (1 / 4) (1 / 2)
    (by norm_num) (by norm_num) (by norm_num)).1.1 (by decide)

/-! ### C2 -/

/-- For a recognized gradient type the switch always yields a numeric
color. -/
theorem gradientColor_eq_some (size : ℕ) (gt : String) (colors : List ℕ)
    (rp : ℕ → ℕ → ℚ) (x y : ℕ) (hgt : recognizedGradient gt = true) :
    ∃ v, gradientColor size gt colors rp x y = some v := by
  simp only [recognizedGradient, Bool.or_eq_true, decide_eq_true_eq]
    at hgt
  rcases hgt with (h | h) | h <;> subst h <;>
    simp [gradientColor]

/-- C2: the gradient mapper recolors exactly the pixels classified dark
(the classifier the code applies is `rgba.r < 128`, its luminance proxy —
red channel below the fixed threshold 128).  Whenever the stage completes
(for every gradient type of the contract it does), the output has the
input's dimensions and every pixel not classified dark is unchanged; for
the contract's gradient types every canvas pixel classified dark receives
exactly the positional gradient color. -/
theorem applyGradient_recolors_exactly_dark (img : Image) (size : ℕ)
    (gradientType : String) (colors : List ℕ)
    (radialPos : ℕ → ℕ → ℚ) :
    (∀ out, applyGradient img size gradientType colors radialPos =
        .ok out →
      out.width = img.width ∧ out.height = img.height ∧
      ∀ x y, isDark (img.px x y) = false → out.px x y = img.px x y) ∧
    (recognizedGradient gradientType = true →
      ∃ out, applyGradient img size gradientType colors radialPos =
          .ok out ∧
        ∀ x y, x < size → y < size → isDark (img.px x y) = true →
          some (out.px x y) =
            gradientColor size gradientType colors radialPos x y) := by
  constructor
  · intro out hout
    unfold applyGradient at hout
    split_ifs at hout with h1 h2
    · injection hout with hout
      subst hout
      refine ⟨rfl, rfl, fun x y hxy => ?_⟩
      simp [hxy]
    · injection hout with hout
      subst hout
      exact ⟨rfl, rfl, fun x y hxy => rfl⟩
  · intro hgt
    unfold applyGradient
    rw [if_pos hgt]
    refine ⟨_, rfl, fun x y hx hy hd => ?_⟩
    obtain ⟨v, hv⟩ :=
      gradientColor_eq_some size gradientType colors radialPos x y hgt
    simp [hx, hy, hd, hv]

/-- Witness for `applyGradient_recolors_exactly_dark`: the stage
completes on `blackImg 2` with `linear-vertical` and recolors its dark
pixels with the positional gradient color. -/
theorem applyGradient_recolors_witness :
    ∃ out, applyGradient (blackImg 2) 2 "linear-vertical" [0] zeroPos =
        .ok out ∧
      ∀ x y, x < 2 → y < 2 → isDark ((blackImg 2).px x y) = true →
        some (out.px x y) =
          gradientColor 2 "linear-vertical" [0] zeroPos x y :=
  (applyGradient_recolors_exactly_dark (blackImg 2) 2 "linear-vertical"
    [0] zeroPos).2 (by decide)

/-! ### C4 -/

/-- C4 is false as stated: the source computes
`frameWidth = Math.floor(size * 0.1)`, not `round(0.1 · size)`.  For a
`305 × 305` input with an empty caption the produced width is
`305 + 2·30 = 365`, while the claim's `round` formula gives
`305 + 2·31 = 367`. -/
theorem applyFrame_dims_cex :
    (applyFrame (blackImg 305) "basic" ⟨305, 255, "", 255, 14⟩
      idPrint).width = 365 ∧
    305 + 2 * specFrameWidth 305 = 367 ∧
    (applyFrame (blackImg 305) "basic" ⟨305, 255, "", 255, 14⟩
      idPrint).width ≠ 305 + 2 * specFrameWidth 305 := by
  refine ⟨rfl, by decide, by decide⟩

/-- C4 amended: with `frameWidth = ⌊0.1 · w⌋` (floor, not round), for
every square input raster whose edge equals the stage's `size` option,
the output is `(w + 2·frameWidth) × (h + 2·frameWidth + textSpace)` with
`textSpace = 60` iff the caption text is non-empty, else `0`. -/
theorem applyFrame_dims (image : Image) (frameStyle : String)
    (o : FrameOptions)
    (printPx : (ℕ → ℕ → ℕ) → String → ℕ → ℕ → ℕ)
    (hw : image.width = o.size) (hh : image.height = o.size) :
    (applyFrame image frameStyle o printPx).width =
      image.width + 2 * (image.width / 10) ∧
    (applyFrame image frameStyle o printPx).height =
      image.height + 2 * (image.height / 10) +
        (if o.frameText ≠ "" then 60 else 0) := by
  refine ⟨?_, ?_⟩ <;> simp [applyFrame, hw, hh] <;> ring

/-- Witness for `applyFrame_dims` on a `305 × 305` raster with a
caption. -/
theorem applyFrame_dims_witness :
    (applyFrame (blackImg 305) "basic" ⟨305, 255, "scan me", 255, 14⟩
      idPrint).width = (blackImg 305).width +
        2 * ((blackImg 305).width / 10) ∧
    (applyFrame (blackImg 305) "basic" ⟨305, 255, "scan me", 255, 14⟩
      idPrint).height = (blackImg 305).height +
        2 * ((blackImg 305).height / 10) +
        (if ("scan me" : String) ≠ "" then 60 else 0) :=
  applyFrame_dims (blackImg 305) "basic" ⟨305, 255, "scan me", 255, 14⟩
    idPrint rfl rfl

/-! ### C6 -/

/-- C6: each of the three styling stages wraps its body in
`try { … } catch { return qrBuffer; }`: whenever the fallible body of the
gradient stage, the module-restyling stage, or the frame stage raises an
exception, the stage returns its input buffer unchanged instead of
propagating the exception, so the pipeline continues. -/
theorem stage_failure_returns_input {β : Type}
    (decode : β → Except String Image) (encode : Image → Except String β)
    (loadFont : Except String Unit)
    (printPx : (ℕ → ℕ → ℕ) → String → ℕ → ℕ → ℕ) (qrBuffer : β)
    (size : ℕ) (gradientType style frameStyle : String)
    (colors : List ℕ) (radialPos : ℕ → ℕ → ℚ) (o : FrameOptions) :
    (∀ e, gradientBody decode encode qrBuffer size gradientType colors
        radialPos = .error e →
      applyGradientStage decode encode qrBuffer size gradientType colors
        radialPos = qrBuffer) ∧
    (∀ e, styleBody decode encode qrBuffer style size = .error e →
      applyAdvancedStyleStage decode encode qrBuffer style size =
        qrBuffer) ∧
    (∀ e, frameBody decode encode loadFont printPx qrBuffer frameStyle o =
        .error e →
      applyFrameStage decode encode loadFont printPx qrBuffer frameStyle o
        = qrBuffer) := by
  refine ⟨fun e h => ?_, fun e h => ?_, fun e h => ?_⟩
  · simp [applyGradientStage, tryCatch, h]
  · simp [applyAdvancedStyleStage, tryCatch, h]
  · simp [applyFrameStage, tryCatch, h]

set_option maxRecDepth 4000 in
/-- Witness for `stage_failure_returns_input`: a failing decode makes
each stage body error, and each stage then returns its input buffer. -/
theorem stage_failure_witness :
    gradientBody failDecode okEncode whiteImg 1 "radial" [0, 1] zeroPos =
      .error "read failed" ∧
    applyGradientStage failDecode okEncode whiteImg 1 "radial" [0, 1]
      zeroPos = whiteImg ∧
    applyAdvancedStyleStage failDecode okEncode whiteImg "dots" 33 =
      whiteImg ∧
    applyFrameStage failDecode okEncode (.ok ()) idPrint whiteImg "basic"
      ⟨1, 255, "", 255, 14⟩ = whiteImg :=
  ⟨rfl,
   (stage_failure_returns_input failDecode okEncode (.ok ()) idPrint
      whiteImg 1 "radial" "dots" "basic" [0, 1] zeroPos
      ⟨1, 255, "", 255, 14⟩).1 "read failed" rfl,
   (stage_failure_returns_input failDecode okEncode (.ok ()) idPrint
      whiteImg 1 "radial" "dots" "basic" [0, 1] zeroPos
      ⟨1, 255, "", 255, 14⟩).2.1 "read failed" rfl,
   (stage_failure_returns_input failDecode okEncode (.ok ()) idPrint
      whiteImg 1 "radial" "dots" "basic" [0, 1] zeroPos
      ⟨1, 255, "", 255, 14⟩).2.2 "read failed" rfl⟩

/-! ### C5 -/

/-- C5: with gradient type `none` (or absent), shape style `square` (or
absent), frame style `none` (or absent) and no logo configured, the
pipeline returns the base raster buffer as-is: every styling stage is
skipped and the output is pixel-identical (indeed the very same buffer)
to the matrix generator's base raster. -/
theorem pipeline_identity {β : Type} (decode : β → Except String Image)
    (encode : Image → Except String β) (loadFont : Except String Unit)
    (printPx : (ℕ → ℕ → ℕ) → String → ℕ → ℕ → ℕ)
    (radialPos : ℕ → ℕ → ℚ) (logoOverlay : β → β) (qrBuffer : β)
    (c : Customization)
    (hg : c.gradientType = none ∨ c.gradientType = some "none")
    (hs : c.style = none ∨ c.style = some "square")
    (hf : c.frame = none ∨ c.frame = some "none")
    (hl : c.logoUrl = none) :
    generatePNG decode encode loadFont printPx radialPos logoOverlay
      qrBuffer c = qrBuffer := by
  rcases hg with hg | hg <;> rcases hs with hs | hs <;>
    rcases hf with hf | hf <;>
    simp [generatePNG, generateStyledQR, truthy, toStyleOptions, hg, hs,
      hf, hl]

/-- Witness for `pipeline_identity` with the all-default customization. -/
theorem pipeline_identity_witness :
    generatePNG okDecode okEncode (.ok ()) idPrint zeroPos id whiteImg
      {} = whiteImg :=
  pipeline_identity okDecode okEncode (.ok ()) idPrint zeroPos id whiteImg
    {} (Or.inl rfl) (Or.inl rfl) (Or.inl rfl) rfl

/-! ### C8 -/

/-- C8 is false as stated: the pipeline guard requires
`gradientColors.length >= 2`, so a single-stop gradient spec
(`linear-vertical`, stops `[#FF0000]`) is skipped entirely.  On an
all-black `2 × 2` raster the output is the input buffer; the dark pixel
`(0,0)` keeps its color `0x000000FF` — it is recolored neither to the raw
stop `0xFF0000` nor to its RGBA form `rgbaToInt 255 0 0 255`. -/
theorem singleStop_gradient_cex :
    generateStyledQR okDecode okEncode (.ok ()) idPrint zeroPos
      (blackImg 2) singleStopOpts = blackImg 2 ∧
    isDark ((blackImg 2).px 0 0) = true ∧
    (generateStyledQR okDecode okEncode (.ok ()) idPrint zeroPos
      (blackImg 2) singleStopOpts).px 0 0 = 255 ∧
    (255 : ℕ) ≠ 0xFF0000 ∧ (255 : ℕ) ≠ rgbaToInt 255 0 0 255 :=
  ⟨rfl, by decide, rfl, by decide, by decide⟩

/-- C8 amended: a gradient spec with fewer than two stops (or no stop
list) does not act as a flat recolor — the pipeline skips the gradient
stage entirely (the guard demands `≥ 2` stops), leaving the raster
exactly as if the gradient type were `none`. -/
theorem singleStop_skips_gradient {β : Type}
    (decode : β → Except String Image) (encode : Image → Except String β)
    (loadFont : Except String Unit)
    (printPx : (ℕ → ℕ → ℕ) → String → ℕ → ℕ → ℕ)
    (radialPos : ℕ → ℕ → ℚ) (qrBuffer : β) (o : StyleOptions)
    (h : gradientColorsOk o.gradientColors = false) :
    generateStyledQR decode encode loadFont printPx radialPos qrBuffer o =
      generateStyledQR decode encode loadFont printPx radialPos qrBuffer
        { o with gradientType := "none" } := by
  simp [generateStyledQR, h]

/-- Witness for `singleStop_skips_gradient` at the single-stop options. -/
theorem singleStop_skips_gradient_witness :
    generateStyledQR okDecode okEncode (.ok ()) idPrint zeroPos
      (blackImg 2) singleStopOpts =
    generateStyledQR okDecode okEncode (.ok ()) idPrint zeroPos
      (blackImg 2) { singleStopOpts with gradientType := "none" } :=
  singleStop_skips_gradient okDecode okEncode (.ok ()) idPrint zeroPos
    (blackImg 2) singleStopOpts (by decide)

/-! ### C7 -/

/-- C7 amended: unrecognized enum values are NOT rejected — no validation
exists and no stage is prevented from running.  Each consumer falls
through to its default branch instead: an unrecognized shape style
reaches `drawStyledModule`'s default branch and is drawn as a full
square; an unrecognized gradient type reaches `applyGradient`'s switch
default, which assigns the RAW STRING stop `colors[0]`, so
`setPixelColor` throws at the first dark pixel and the gradient stage
returns its input buffer unchanged (no recolor happens); an unrecognized
frame style behaves exactly like the plain `basic` frame; and
`generateStyledQR` runs all three stages on such a configuration. -/
theorem unrecognized_enums_default :
    (∀ style : String, style ∉ shapeStyles →
      ∀ x y s px py, moduleCovers style x y s px py = true) ∧
    (∀ gt : String, gt ∉ gradientTypes →
      ∀ size colors radialPos x y,
        gradientColor size gt colors radialPos x y = none) ∧
    (∀ gt : String, gt ∉ gradientTypes →
      ∀ (img : Image) size colors radialPos, hasDarkPixel img size = true →
        applyGradient img size gt colors radialPos =
          .error "setPixelColor: hex must be a number") ∧
    (∀ gt : String, gt ∉ gradientTypes →
      ∀ (β : Type) (decode : β → Except String Image)
        (encode : Image → Except String β) (qrBuffer : β) (img : Image)
        size colors radialPos, decode qrBuffer = .ok img →
        hasDarkPixel img size = true →
        applyGradientStage decode encode qrBuffer size gt colors radialPos
          = qrBuffer) ∧
    (∀ f : String, f ∉ frameStyles →
      ∀ image o printPx,
        applyFrame image f o printPx =
          applyFrame image "basic" o printPx) ∧
    (∀ (β : Type) (decode : β → Except String Image)
        (encode : Image → Except String β)
        (loadFont : Except String Unit)
        (printPx : (ℕ → ℕ → ℕ) → String → ℕ → ℕ → ℕ)
        (radialPos : ℕ → ℕ → ℚ) (qrBuffer : β) (o : StyleOptions),
      o.style ∉ shapeStyles → o.gradientType ∉ gradientTypes →
      o.frame ∉ frameStyles →
      gradientColorsOk o.gradientColors = true →
      generateStyledQR decode encode loadFont printPx radialPos qrBuffer o
        = applyFrameStage decode encode loadFont printPx
            (applyAdvancedStyleStage decode encode
              (applyGradientStage decode encode qrBuffer o.size
                o.gradientType (o.gradientColors.getD []) radialPos)
              o.style o.size)
            o.frame ⟨o.size, o.frameColor, o.frameText, o.frameTextColor,
              o.frameTextSize⟩) := by
  have hgnone : ∀ gt : String, gt ∉ gradientTypes →
      ∀ size colors (radialPos : ℕ → ℕ → ℚ) x y,
        gradientColor size gt colors radialPos x y = none := by
    intro gt hgt size colors rp x y
    simp only [gradientTypes, List.mem_cons, List.not_mem_nil, not_or]
      at hgt
    obtain ⟨-, hlv, hlh, hrad, -⟩ := hgt
    simp [gradientColor, hlv, hlh, hrad]
  have hgerr : ∀ gt : String, gt ∉ gradientTypes →
      ∀ (img : Image) size colors (radialPos : ℕ → ℕ → ℚ),
        hasDarkPixel img size = true →
        applyGradient img size gt colors radialPos =
          .error "setPixelColor: hex must be a number" := by
    intro gt hgt img size colors rp hd
    have hrec : recognizedGradient gt = false := by
      simp only [gradientTypes, List.mem_cons, List.not_mem_nil, not_or]
        at hgt
      obtain ⟨-, hlv, hlh, hrad, -⟩ := hgt
      simp [recognizedGradient, hlv, hlh, hrad]
    simp [applyGradient, hrec, hd]
  refine ⟨fun style hst x y s px py => ?_, hgnone,
    hgerr, fun gt hgt β d e buf img size colors rp hdec hd => ?_,
    fun f hf image o pp => ?_,
    fun β d e lf pp rp buf o h1 h2 h3 h4 => ?_⟩
  · simp only [shapeStyles, List.mem_cons, List.not_mem_nil, not_or]
      at hst
    obtain ⟨-, hdots, hrnd, -, -, hcr, -⟩ := hst
    simp [moduleCovers, hdots, hrnd, hcr]
  · have herr := hgerr gt hgt img size colors rp hd
    unfold applyGradientStage gradientBody tryCatch
    rw [hdec]
    show (match (applyGradient img size gt colors rp >>=
        fun recolored => e recolored : Except String β) with
      | .ok out => out
      | .error _ => buf) = buf
    rw [herr]
    rfl
  · simp only [frameStyles, List.mem_cons, List.not_mem_nil, not_or]
      at hf
    obtain ⟨-, -, hcirc, -, -, -, -⟩ := hf
    simp [applyFrame, hcirc]
  · simp only [shapeStyles, gradientTypes, frameStyles, List.mem_cons,
      List.not_mem_nil, not_or] at h1 h2 h3
    simp [generateStyledQR, h1.1, h2.1, h3.1, h4]

/-- Witness for `unrecognized_enums_default` at concrete unrecognized
enum values (`"hexagon"`, `"swirl"`, `"fancy"`): in particular, the
gradient stage on an all-black raster with type `"swirl"` performs NO
recolor — it returns its input buffer. -/
theorem unrecognized_enums_default_witness :
    moduleCovers "hexagon" 1 2 3 4 5 = true ∧
    gradientColor 7 "swirl" [11, 22] zeroPos 3 4 = none ∧
    applyGradientStage okDecode okEncode (blackImg 2) 2 "swirl" [11, 22]
      zeroPos = blackImg 2 ∧
    applyFrame whiteImg "fancy" ⟨1, 255, "", 255, 14⟩ idPrint =
      applyFrame whiteImg "basic" ⟨1, 255, "", 255, 14⟩ idPrint :=
  ⟨unrecognized_enums_default.1 "hexagon" (by decide) 1 2 3 4 5,
   unrecognized_enums_default.2.1 "swirl" (by decide) 7 [11, 22] zeroPos
     3 4,
   unrecognized_enums_default.2.2.2.1 "swirl" (by decide) Image okDecode
     okEncode (blackImg 2) (blackImg 2) 2 [11, 22] zeroPos rfl
     (by decide),
   unrecognized_enums_default.2.2.2.2.1 "fancy" (by decide) whiteImg
     ⟨1, 255, "", 255, 14⟩ idPrint⟩

/-! ### Characterization of the module-restyling fold -/

theorem drawStyledModule_px (image : Image) (x y s : ℕ) (style : String)
    (color : ℕ) (p q : ℕ) :
    (drawStyledModule image x y s style color).px p q =
      if x ≤ p ∧ p < x + s ∧ y ≤ q ∧ q < y + s ∧
          moduleCovers style x y s p q then color
      else image.px p q := rfl

/-- A pixel inside the tile `[i·s, i·s + s)` has tile start `i·s`. -/
theorem tile_start_eq {s i p : ℕ} (h1 : i * s ≤ p)
    (h2 : p < i * s + s) : p / s * s = i * s := by
  have hdiv : p / s = i := by
    apply Nat.div_eq_of_lt_le h1
    rw [Nat.succ_mul]
    omega
  rw [hdiv]

/-- The module tiles visited by the restyling loop are disjoint (their
starts are multiples of the pitch `s`), so each output pixel is governed
by at most one `drawStyledModule` call — the one for the tile containing
it.  Folding the per-module step over any list of tile starts therefore
evaluates pointwise as follows. -/
theorem foldl_draw_px (img : Image) (style : String) (s : ℕ)
    (hs : 0 < s) (M : List (ℕ × ℕ)) (acc : Image) (p q : ℕ)
    (hM : ∀ m ∈ M, (∃ i, m.1 = i * s) ∧ (∃ j, m.2 = j * s)) :
    (M.foldl (fun acc m =>
        if isDark (img.px (m.1 + s / 2) (m.2 + s / 2)) then
          drawStyledModule acc m.1 m.2 s style (img.px m.1 m.2)
        else acc) acc).px p q =
      if (p / s * s, q / s * s) ∈ M ∧
          isDark (img.px (p / s * s + s / 2) (q / s * s + s / 2)) =
            true ∧
          moduleCovers style (p / s * s) (q / s * s) s p q = true then
        img.px (p / s * s) (q / s * s)
      else acc.px p q := by
  have hp1 : p / s * s ≤ p := Nat.div_mul_le_self p s
  have hp2 : p < p / s * s + s := by
    have h1 : p / s * s + p % s = p := Nat.div_add_mod' p s
    have h2 := Nat.mod_lt p hs
    omega
  have hq1 : q / s * s ≤ q := Nat.div_mul_le_self q s
  have hq2 : q < q / s * s + s := by
    have h1 : q / s * s + q % s = q := Nat.div_add_mod' q s
    have h2 := Nat.mod_lt q hs
    omega
  induction M generalizing acc with
  | nil => simp
  | cons m t ih =>
    obtain ⟨mx, my⟩ := m
    obtain ⟨⟨i, hi⟩, ⟨j, hj⟩⟩ := hM (mx, my) (List.mem_cons_self _ _)
    have hMt : ∀ m ∈ t, (∃ i, m.1 = i * s) ∧ (∃ j, m.2 = j * s) :=
      fun m hm => hM m (List.mem_cons_of_mem _ hm)
    simp only [List.foldl_cons]
    rw [ih _ hMt]
    by_cases hxy : mx = p / s * s ∧ my = q / s * s
    · obtain ⟨hx, hy⟩ := hxy
      subst hx
      subst hy
      by_cases hdark :
          isDark (img.px (p / s * s + s / 2) (q / s * s + s / 2)) = true
      · by_cases hcov :
            moduleCovers style (p / s * s) (q / s * s) s p q = true
        · have hdraw : (drawStyledModule acc (p / s * s) (q / s * s) s
              style (img.px (p / s * s) (q / s * s))).px p q =
              img.px (p / s * s) (q / s * s) := by
            rw [drawStyledModule_px,
              if_pos ⟨hp1, hp2, hq1, hq2, hcov⟩]
          simp only [hdark, if_true, hdraw, List.mem_cons, hcov]
          split_ifs <;> simp_all
        · have hdraw : (drawStyledModule acc (p / s * s) (q / s * s) s
              style (img.px (p / s * s) (q / s * s))).px p q =
              acc.px p q := by
            rw [drawStyledModule_px, if_neg]
            rintro ⟨-, -, -, -, hc⟩
            exact hcov hc
          simp only [hdark, if_true, hdraw, hcov]
          simp
      · simp only [if_neg hdark, hdark]
        simp
    · have hstep : ∀ acc' : Image,
          (if isDark (img.px (mx + s / 2) (my + s / 2)) then
            drawStyledModule acc' mx my s style (img.px mx my)
          else acc').px p q = acc'.px p q := by
        intro acc'
        by_cases hd : isDark (img.px (mx + s / 2) (my + s / 2)) = true
        · rw [if_pos hd, drawStyledModule_px, if_neg]
          rintro ⟨r1, r2, r3, r4, -⟩
          subst hi
          subst hj
          exact hxy ⟨(tile_start_eq r1 r2).symm, (tile_start_eq r3 r4).symm⟩
        · rw [if_neg hd]
      rw [hstep]
      have hmem : ((p / s * s, q / s * s) ∈ (mx, my) :: t) ↔
          ((p / s * s, q / s * s) ∈ t) := by
        simp only [List.mem_cons, or_iff_right_iff_imp, Prod.mk.injEq]
        rintro ⟨h1, h2⟩
        exact absurd ⟨h1.symm, h2.symm⟩ hxy
      simp only [hmem]

theorem mem_moduleStarts {size s : ℕ} (hs : 0 < s) (x : ℕ) :
    x ∈ moduleStarts size s ↔ (∃ i, x = i * s) ∧ x < size := by
  unfold moduleStarts
  simp only [List.mem_map, List.mem_range]
  constructor
  · rintro ⟨i, hilt, rfl⟩
    refine ⟨⟨i, rfl⟩, ?_⟩
    have h2 : (i + 1) * s ≤ size + s - 1 :=
      (Nat.le_div_iff_mul_le hs).mp (Nat.succ_le_of_lt hilt)
    have h3 : i * s + s ≤ size + s - 1 := by
      rw [add_mul, one_mul] at h2
      omega
    omega
  · rintro ⟨⟨i, rfl⟩, hlt⟩
    refine ⟨i, ?_, rfl⟩
    have h1 : (i + 1) * s ≤ size + s - 1 := by
      rw [add_mul, one_mul]
      omega
    have h2 := (Nat.le_div_iff_mul_le hs).mpr h1
    omega

theorem mem_modulePairs {size s : ℕ} (hs : 0 < s) (a b : ℕ) :
    (a, b) ∈ modulePairs size s ↔
      ((∃ i, a = i * s) ∧ a < size) ∧ (∃ j, b = j * s) ∧ b < size := by
  unfold modulePairs
  simp only [List.mem_flatMap, List.mem_map]
  constructor
  · rintro ⟨y, hy, x, hx, heq⟩
    rw [Prod.mk.injEq] at heq
    obtain ⟨rfl, rfl⟩ := heq
    exact ⟨(mem_moduleStarts hs _).mp hx, (mem_moduleStarts hs _).mp hy⟩
  · rintro ⟨ha, hb⟩
    exact ⟨b, (mem_moduleStarts hs _).mpr hb, a,
      (mem_moduleStarts hs _).mpr ha, rfl⟩

/-- Pointwise form of `styledCanvas`: provided the module pitch
`⌊size/33⌋` is positive (for `0 < size < 33` the JS loop diverges) and
the pixel's tile start lies on the canvas, the canvas pixel is the
module-corner color of the input when the pixel's module sampled dark and
its shape covers the pixel, and fresh opaque white otherwise. -/
theorem styledCanvas_px (img : Image) (style : String)
    (size p q : ℕ) (hs : 0 < size / 33)
    (hp : p / (size / 33) * (size / 33) < size)
    (hq : q / (size / 33) * (size / 33) < size) :
    (styledCanvas img style size).px p q =
      if isDark (img.px
            (p / (size / 33) * (size / 33) + size / 33 / 2)
            (q / (size / 33) * (size / 33) + size / 33 / 2)) = true ∧
          moduleCovers style (p / (size / 33) * (size / 33))
            (q / (size / 33) * (size / 33)) (size / 33) p q = true then
        img.px (p / (size / 33) * (size / 33))
          (q / (size / 33) * (size / 33))
      else 0xFFFFFFFF := by
  have hM : ∀ m ∈ modulePairs size (size / 33),
      (∃ i, m.1 = i * (size / 33)) ∧ ∃ j, m.2 = j * (size / 33) := by
    intro m hm
    obtain ⟨mx, my⟩ := m
    have := (mem_modulePairs hs mx my).mp hm
    exact ⟨this.1.1, this.2.1⟩
  have hmem : (p / (size / 33) * (size / 33),
      q / (size / 33) * (size / 33)) ∈ modulePairs size (size / 33) :=
    (mem_modulePairs hs _ _).mpr
      ⟨⟨⟨p / (size / 33), rfl⟩, hp⟩, ⟨q / (size / 33), rfl⟩, hq⟩
  simp only [styledCanvas]
  rw [foldl_draw_px img style (size / 33) hs (modulePairs size (size / 33))
    ⟨size, size, fun _ _ => 0xFFFFFFFF⟩ p q hM]
  simp only [hmem, true_and]

theorem restyleResult_of_throws {img : Image} {style : String} {size : ℕ}
    (h : restyleThrows img style size = true) :
    restyleResult img style size = img := by
  simp [restyleResult, applyAdvancedStyle, h]

theorem restyleResult_of_no_throw {img : Image} {style : String}
    {size : ℕ} (h : restyleThrows img style size = false) :
    restyleResult img style size = styledCanvas img style size := by
  simp [restyleResult, applyAdvancedStyle, h]

/-- When the module pitch divides `size` and the input raster is at
least `size × size`, every sample read and every shape write stays in
bounds, so the restyling loop completes. -/
theorem restyleThrows_eq_false (img : Image) (style : String) (size : ℕ)
    (hs : 0 < size / 33) (hdvd : size % (size / 33) = 0)
    (hw : size ≤ img.width) (hh : size ≤ img.height) :
    restyleThrows img style size = false := by
  unfold restyleThrows
  rw [List.any_eq_false]
  intro m hm
  obtain ⟨mx, my⟩ := m
  obtain ⟨⟨⟨i, rfl⟩, hix⟩, ⟨j, rfl⟩, hjy⟩ := (mem_modulePairs hs _ _).mp hm
  have hdvd' : size / (size / 33) * (size / 33) = size :=
    Nat.div_mul_cancel (Nat.dvd_of_mod_eq_zero hdvd)
  have hxs : i * (size / 33) + size / 33 ≤ size := by
    have hik : i < size / (size / 33) := by
      by_contra hc
      push_neg at hc
      have h2 : size / (size / 33) * (size / 33) ≤ i * (size / 33) :=
        Nat.mul_le_mul_right _ hc
      omega
    have h2 : (i + 1) * (size / 33) ≤
        size / (size / 33) * (size / 33) :=
      Nat.mul_le_mul_right _ (Nat.succ_le_of_lt hik)
    rw [hdvd', add_mul, one_mul] at h2
    omega
  have hys : j * (size / 33) + size / 33 ≤ size := by
    have hjk : j < size / (size / 33) := by
      by_contra hc
      push_neg at hc
      have h2 : size / (size / 33) * (size / 33) ≤ j * (size / 33) :=
        Nat.mul_le_mul_right _ hc
      omega
    have h2 : (j + 1) * (size / 33) ≤
        size / (size / 33) * (size / 33) :=
      Nat.mul_le_mul_right _ (Nat.succ_le_of_lt hjk)
    rw [hdvd', add_mul, one_mul] at h2
    omega
  have c1 : ¬(img.width ≤ i * (size / 33) + size / 33 / 2) := by
    have : size / 33 / 2 < size / 33 := Nat.div_lt_self hs one_lt_two
    omega
  have c2 : ¬(img.height ≤ j * (size / 33) + size / 33 / 2) := by
    have : size / 33 / 2 < size / 33 := Nat.div_lt_self hs one_lt_two
    omega
  have c3 : drawThrows style (i * (size / 33)) (j * (size / 33))
      (size / 33) size = false := by
    unfold drawThrows
    rw [decide_eq_false_iff_not]
    rintro ⟨px, hpx, py, hpy, -, -, hoob, -⟩
    rcases hoob with h | h <;> omega
  simp [c1, c2, c3]

/-- With buffers taken to be images and decode/encode the identities,
the buffer-level restyling stage computes exactly `restyleResult`. -/
theorem applyAdvancedStyleStage_okDecode (img : Image) (style : String)
    (size : ℕ) :
    applyAdvancedStyleStage okDecode okEncode img style size =
      restyleResult img style size := by
  unfold applyAdvancedStyleStage styleBody tryCatch okDecode okEncode
    restyleResult
  simp only [except_bind_ok]
  cases applyAdvancedStyle img style size with
  | ok out => rfl
  | error e => rfl

set_option maxRecDepth 8000 in
/-- C7 is false as stated: `"hexagon"` is not a recognized shape style,
yet the invocation does not fail — no configuration error exists anywhere
in the pipeline.  `generateStyledQR` runs the module-restyling stage on
the unvalidated value and returns a normally drawn image (the stage
executed: pixel `(0,0)` of the all-black input was drawn back dark by the
default full-square branch; at this size the loop completes in
bounds). -/
theorem failfast_cex :
    ("hexagon" ∉ shapeStyles) ∧
    generateStyledQR okDecode okEncode (.ok ()) idPrint zeroPos
      (blackImg 33) hexagonOpts =
      restyleResult (blackImg 33) "hexagon" 33 ∧
    (restyleResult (blackImg 33) "hexagon" 33).px 0 0 = 255 := by
  have hnt : restyleThrows (blackImg 33) "hexagon" 33 = false :=
    restyleThrows_eq_false _ _ _ (by decide) (by decide) (by decide)
      (by decide)
  refine ⟨by decide, ?_, ?_⟩
  · simp only [generateStyledQR, hexagonOpts]
    rw [if_neg (fun h => h rfl),
      if_pos (by decide : ("hexagon" : String) ≠ "square"),
      if_neg (fun h => h.1 rfl)]
    exact applyAdvancedStyleStage_okDecode _ _ _
  · rw [restyleResult_of_no_throw hnt,
      styledCanvas_px (blackImg 33) "hexagon" 33 0 0 (by decide)
      (by decide) (by decide), if_pos ⟨by decide, by decide⟩]
    rfl

/-! ### C1 -/

/-- For every recognized shape and module pitch `s ≥ 2`, the drawn shape
covers the module's central sampling point `(x + ⌊s/2⌋, y + ⌊s/2⌋)`: the
dot circle and the rounded-corner exclusion zones never reach the
center.  (For pitch `s = 1` this fails — see the counterexample.) -/
theorem moduleCovers_center (style : String)
    (hstyle : style ∈ shapeStyles) (x y s : ℕ) (hs : 2 ≤ s) :
    moduleCovers style x y s (x + s / 2) (y + s / 2) = true := by
  have k1 : ¬(10 * (((x + s / 2 : ℕ) : ℤ) - ((x : ℕ) : ℤ)) <
      3 * ((s : ℕ) : ℤ)) := by push_cast; omega
  have k2 : ¬(7 * ((s : ℕ) : ℤ) <
      10 * (((x + s / 2 : ℕ) : ℤ) - ((x : ℕ) : ℤ))) := by push_cast; omega
  have hdots : ∀ st : String, st = "dots" →
      moduleCovers st x y s (x + s / 2) (y + s / 2) = true := by
    rintro _ rfl
    unfold moduleCovers
    rw [if_pos rfl, decide_eq_true_eq]
    obtain ⟨k, hk⟩ : ∃ k, s = 2 * k ∨ s = 2 * k + 1 := ⟨s / 2, by omega⟩
    rcases hk with rfl | rfl
    · rw [show 2 * k / 2 = k by omega]
      push_cast
      ring_nf
      nlinarith [sq_nonneg ((k : ℤ))]
    · rw [show (2 * k + 1) / 2 = k by omega]
      have hk1 : (1 : ℤ) ≤ (k : ℤ) := by exact_mod_cast
        (by omega : 1 ≤ k)
      push_cast
      ring_nf
      nlinarith [hk1]
  have hround : ∀ st : String, st = "rounded" ∨ st = "classy-rounded" →
      moduleCovers st x y s (x + s / 2) (y + s / 2) = true := by
    intro st hst
    have hne : ¬(st = "dots") := by rcases hst with rfl | rfl <;> decide
    unfold moduleCovers
    rw [if_neg hne, if_pos hst]
    rw [if_neg (fun h => k1 h.1), if_neg (fun h => k2 h.1),
      if_neg (fun h => k1 h.1), if_neg (fun h => k2 h.1)]
  simp only [shapeStyles, List.mem_cons, List.not_mem_nil, or_false]
    at hstyle
  rcases hstyle with rfl | rfl | rfl | rfl | rfl | rfl
  · simp [moduleCovers]
  · exact hdots _ rfl
  · exact hround _ (Or.inl rfl)
  · simp [moduleCovers]
  · simp [moduleCovers]
  · exact hround _ (Or.inr rfl)

/-- C1 is false as stated: at `size = 33` the module pitch is `1`; the
module at `(0,0)` of an all-black raster is classified dark (its central
sampling point `(0,0)` is dark), yet for the `dots` shape the inscribed
circle of radius `1/2` contains no pixel of the `1 × 1` bounding box, so
the restyled output (the loop completes in bounds at this size) leaves
the whole module white: its center pixel is no longer classified dark. -/
theorem restyle_center_cex :
    ("dots" ∈ shapeStyles) ∧
    isDark ((blackImg 33).px 0 0) = true ∧
    isDark ((restyleResult (blackImg 33) "dots" 33).px 0 0) =
      false := by
  have hnt : restyleThrows (blackImg 33) "dots" 33 = false :=
    restyleThrows_eq_false _ _ _ (by decide) (by decide) (by decide)
      (by decide)
  refine ⟨by decide, by decide, ?_⟩
  rw [restyleResult_of_no_throw hnt,
    styledCanvas_px (blackImg 33) "dots" 33 0 0 (by decide)
    (by decide) (by decide), if_neg]
  · decide
  · decide

/-- C1 amended: for every supported shape, every module of the sampling
grid whose central sampling point is dark keeps a dark central sampling
point in the restyling stage's result, PROVIDED the module pitch
`⌊size/33⌋` is at least `2` (at pitch `1` the dots/rounded shapes draw
nothing) and the input pixel at the module's top-left corner — the color
the module is actually drawn with — is itself dark (the code paints with
the corner color, not the sampled one).  This holds on both paths of the
stage: when the loop completes the drawn shape covers the center, and
when an out-of-bounds access makes it throw the stage returns the input
raster, whose central sampling point is dark by assumption. -/
theorem restyle_preserves_dark_center (img : Image) (style : String)
    (hstyle : style ∈ shapeStyles) (size i j : ℕ) (hs : 2 ≤ size / 33)
    (hi : i * (size / 33) < size) (hj : j * (size / 33) < size)
    (hdark : isDark (img.px (i * (size / 33) + size / 33 / 2)
      (j * (size / 33) + size / 33 / 2)) = true)
    (hcorner : isDark (img.px (i * (size / 33)) (j * (size / 33))) =
      true) :
    isDark ((restyleResult img style size).px
      (i * (size / 33) + size / 33 / 2)
      (j * (size / 33) + size / 33 / 2)) = true := by
  cases hthrow : restyleThrows img style size with
  | true =>
    rw [restyleResult_of_throws hthrow]
    exact hdark
  | false =>
    have hs0 : 0 < size / 33 := by omega
    have hdi : (i * (size / 33) + size / 33 / 2) / (size / 33) *
        (size / 33) = i * (size / 33) :=
      tile_start_eq (Nat.le_add_right _ _) (by omega)
    have hdj : (j * (size / 33) + size / 33 / 2) / (size / 33) *
        (size / 33) = j * (size / 33) :=
      tile_start_eq (Nat.le_add_right _ _) (by omega)
    rw [restyleResult_of_no_throw hthrow,
      styledCanvas_px img style size _ _ hs0
      (by rw [hdi]; exact hi) (by rw [hdj]; exact hj), hdi, hdj,
      if_pos ⟨hdark, moduleCovers_center style hstyle _ _ _ hs⟩]
    exact hcorner

/-- Witness for `restyle_preserves_dark_center`: the all-black `300×300`
raster, style `dots`, module `(0,0)` (pitch `⌊300/33⌋ = 9`; at this
size the stage's sampling overruns the raster, and the center stays dark
via the pass-through path). -/
theorem restyle_preserves_dark_center_witness :
    isDark ((restyleResult (blackImg 300) "dots" 300).px
      (0 * (300 / 33) + 300 / 33 / 2)
      (0 * (300 / 33) + 300 / 33 / 2)) = true :=
  restyle_preserves_dark_center (blackImg 300) "dots" (by decide) 300 0 0
    (by decide) (by decide) (by decide) (by decide) (by decide)

/-! ### C10 -/

set_option maxRecDepth 40000 in
/-- C10 is false as stated: at the spec's default `size = 300` the pitch
is `9` and the loop's sample read for the module starting at `x = 297`
hits column `301 ≥ 300`, so the restyling stage throws and returns its
input raster — a custom background DOES survive restyling at such sizes.
Concretely, an all-red (light) `300 × 300` raster restyled with `dots`
comes back all red: pixel `(5, 7)` is `0xFF0000FF`, not opaque white,
although no dark-sampled module covers it (no pixel is dark at all). -/
theorem restyle_background_cex :
    restyleThrows redImg300 "dots" 300 = true ∧
    restyleResult redImg300 "dots" 300 = redImg300 ∧
    isDark (redImg300.px (0 * (300 / 33) + 300 / 33 / 2)
      (0 * (300 / 33) + 300 / 33 / 2)) = false ∧
    (restyleResult redImg300 "dots" 300).px 5 7 = 0xFF0000FF ∧
    (0xFF0000FF : ℕ) ≠ 0xFFFFFFFF := by
  have ht : restyleThrows redImg300 "dots" 300 = true := by decide
  refine ⟨ht, restyleResult_of_throws ht, by decide, ?_, by decide⟩
  rw [restyleResult_of_throws ht]
  rfl

/-- C10 amended: for every shape style other than `square`, WHEN the
restyling loop completes without an out-of-bounds access (in particular
whenever the pitch `⌊size/33⌋` divides `size`, e.g. `size = 33·k`), the
stage's result is built on a fresh opaque-white canvas
(`new Jimp(size, size, 0xFFFFFFFF)`): every canvas pixel not covered by
the drawn shape of a dark-sampled module is opaque white
`(255,255,255,255)` — and in particular not dark — regardless of what the
input raster held there, so a custom background color does not survive a
completed restyle.  (When the loop's sampling overruns the raster —
`size mod pitch ∈ [1, pitch/2]`, including the default `size = 300` —
the stage instead throws and passes its input through, and the
background survives; see the counterexample.) -/
theorem restyle_background_opaque_white (img : Image) (style : String)
    (_hsq : style ≠ "square") (size p q : ℕ) (hs : 0 < size / 33)
    (hnothrow : restyleThrows img style size = false)
    (hp : p / (size / 33) * (size / 33) < size)
    (hq : q / (size / 33) * (size / 33) < size)
    (hnd : ¬(isDark (img.px
          (p / (size / 33) * (size / 33) + size / 33 / 2)
          (q / (size / 33) * (size / 33) + size / 33 / 2)) = true ∧
        moduleCovers style (p / (size / 33) * (size / 33))
          (q / (size / 33) * (size / 33)) (size / 33) p q = true)) :
    (restyleResult img style size).px p q = 0xFFFFFFFF ∧
    intToRGBA 0xFFFFFFFF = ⟨255, 255, 255, 255⟩ ∧
    isDark 0xFFFFFFFF = false := by
  refine ⟨?_, by decide, by decide⟩
  rw [restyleResult_of_no_throw hnothrow,
    styledCanvas_px img style size p q hs hp hq, if_neg hnd]

/-- Witness for `restyle_background_opaque_white`: restyling an all-red
(light) `33 × 33` raster with `dots` completes (the pitch `1` divides
`33`) and turns pixel `(5,7)` opaque white — the red background does not
survive the completed restyle. -/
theorem restyle_background_opaque_white_witness :
    (restyleResult redImg "dots" 33).px 5 7 = 0xFFFFFFFF ∧
    intToRGBA 0xFFFFFFFF = ⟨255, 255, 255, 255⟩ ∧
    isDark 0xFFFFFFFF = false :=
  restyle_background_opaque_white redImg "dots" (by decide) 33 5 7
    (by decide)
    (restyleThrows_eq_false redImg "dots" 33 (by decide) (by decide)
      (by decide) (by decide))
    (by decide) (by decide) (by decide)

end QRApi
